import Mathlib

/-!
Verification development for the Bri Mission Control dashboard pipeline.

The definitions below are a shallow embedding of the transcript-parsing and
metrics pipeline of the API server (`bmc-api-server` v2: `metrics`,
`trackResponseTime`, `trackCompletionTime`, `getAvgResponseTime`,
`getAvgCompletionTime`, `readSessions`, `parseTranscript`,
`buildDashboardState`) and of the SSE publishing loop of the stream route.

Modelling conventions:
* JavaScript numbers holding epoch-milliseconds, durations and counters are
  modelled as `Int` (they are produced by `Date.now()`, `getTime()` and
  subtraction; all values involved are integral).
* `Date.now()` is threaded explicitly as a `now : Int` argument; one build
  cycle is modelled with a single instant.
* ISO-8601 timestamp strings (`toISOString`) are modelled by the underlying
  epoch-millisecond value; `toISOString` is injective on instants.
* JavaScript string operations `includes`, `startsWith`, `slice(0, k)` are
  modelled on the character lists of Lean strings.
* Falsy/truthy tests (`x || d`) on possibly-absent numbers and strings are
  modelled by `jsOrI` / `jsOrS` (`0`, `""` and `undefined` are falsy).
-/

/-- Boolean test that `p` is a leading segment of `l` (used to model
JavaScript `String.startsWith`). -/
def isPrefixB : List Char → List Char → Bool
  | [], _ => true
  | _ :: _, [] => false
  | a :: as, b :: bs => a = b && isPrefixB as bs

/-- Boolean test that `needle` occurs contiguously inside `hay` (used to
model JavaScript `String.includes`). -/
def hasInfix (hay needle : List Char) : Bool :=
  match hay with
  | [] => needle.isEmpty
  | _ :: t => isPrefixB needle hay || hasInfix t needle

/-- JavaScript `hay.includes(needle)`. -/
def sContains (hay needle : String) : Bool := hasInfix hay.toList needle.toList

/-- JavaScript `s.startsWith(p)`. -/
def sStarts (s p : String) : Bool := isPrefixB p.toList s.toList

/-- JavaScript `x || d` for a possibly-absent string (`undefined` and `""`
are falsy). -/
def jsOrS : Option String → String → String
  | some v, d => if v.isEmpty then d else v
  | none, d => d

/-- JavaScript `x || y` where both sides are possibly-absent strings. -/
def jsOrSO : Option String → Option String → Option String
  | some v, y => if v.isEmpty then y else some v
  | none, y => y

/-- JavaScript `x || d` for a possibly-absent number (`undefined` and `0`
are falsy). -/
def jsOrI : Option Int → Int → Int
  | some v, d => if v = 0 then d else v
  | none, d => d

/-- JavaScript `x || y` where both sides are possibly-absent numbers. -/
def jsOrIO : Option Int → Option Int → Option Int
  | some v, y => if v = 0 then y else some v
  | none, y => y

/-- The `source` tag attached to a latency sample by `parseTranscript`
(lines 207–211): `{ type: 'slack', user, chatType }`.  The constant
`type: 'slack'` is omitted; `dm` records whether `chatType` is `'dm'`
rather than `'channel'`. -/
structure SourceTag where
  user : String
  dm : Bool
deriving DecidableEq, Repr

/-- One latency sample as stored by `trackResponseTime` /
`trackCompletionTime`: `{ ms, timestamp: Date.now(), source }`. -/
structure Sample where
  ms : Int
  timestamp : Int
  src : SourceTag
deriving DecidableEq, Repr

/-- The mutable `metrics` object of the API server:
`{ responseTimes: [], completionTimes: [], lastParsedTimestamps: {} }`.
The per-session cursor map is modelled as an association list. -/
structure Metrics where
  responseTimes : List Sample
  completionTimes : List Sample
  lastParsedTimestamps : List (String × Int)
deriving DecidableEq, Repr

/-- `const MAX_METRICS = 500`. -/
def MAX_METRICS : Nat := 500

/-- The initial `metrics` value (before any tracking). -/
def initialMetrics : Metrics := ⟨[], [], []⟩

/-- The series insertion of `trackResponseTime` / `trackCompletionTime`:
`unshift` the new sample, then `pop` the oldest when the series exceeds
`MAX_METRICS`. -/
def pushBounded (s : Sample) (l : List Sample) : List Sample :=
  let l' := s :: l
  if l'.length > MAX_METRICS then l'.dropLast else l'

/-- `trackResponseTime(ms, source)` (lines 58–63): record the sample only
when `ms >= 1000 && ms < 300000`; the sample is stamped with `Date.now()`
(the explicit `now` argument). -/
def trackResponseTime (ms now : Int) (src : SourceTag) (m : Metrics) : Metrics :=
  if 1000 ≤ ms ∧ ms < 300000 then
    { m with responseTimes := pushBounded ⟨ms, now, src⟩ m.responseTimes }
  else m

/-- `trackCompletionTime(ms, source)` (lines 66–71): record only when
`ms >= 2000 && ms < 600000`. -/
def trackCompletionTime (ms now : Int) (src : SourceTag) (m : Metrics) : Metrics :=
  if 2000 ≤ ms ∧ ms < 600000 then
    { m with completionTimes := pushBounded ⟨ms, now, src⟩ m.completionTimes }
  else m

/-- `Math.round(sum / len)` for an integer sum and a positive length, with
exact rational semantics: `Math.round(x)` is `⌊x + 1/2⌋`, and
`⌊sum/len + 1/2⌋ = (2*sum + len) / (2*len)` using floor division (Lean's
`Int` division is Euclidean, which coincides with floor division for the
positive divisor `2*len`). -/
def jsRound (sum : Int) (len : Nat) : Int := (2 * sum + len) / (2 * len)

/-- `getAvgResponseTime()` (lines 74–79): samples of the last 24 hours
(`timestamp > Date.now() - 86400000`), `0` when none, otherwise the
rounded mean. -/
def getAvgResponseTime (now : Int) (m : Metrics) : Int :=
  let cutoff := now - 86400000
  let recent := m.responseTimes.filter (fun r => cutoff < r.timestamp)
  if recent.length = 0 then 0
  else jsRound (recent.foldl (fun s r => s + r.ms) 0) recent.length

/-- `getAvgCompletionTime()` (lines 81–86). -/
def getAvgCompletionTime (now : Int) (m : Metrics) : Int :=
  let cutoff := now - 86400000
  let recent := m.completionTimes.filter (fun r => cutoff < r.timestamp)
  if recent.length = 0 then 0
  else jsRound (recent.foldl (fun s r => s + r.ms) 0) recent.length

/-- The role of a transcript line (`msg.role`). -/
inductive Role where
  | user
  | assistant
  | other
deriving DecidableEq, Repr

/-- One successfully JSON-parsed transcript line, as consumed by the loop of
`parseTranscript` (lines 124–247).
* `ts` is `new Date(msg.timestamp || entry.timestamp).getTime()`; `none`
  models a missing, zero or `NaN` timestamp only in the sense that the
  field could not be parsed at all — the source additionally skips a parsed
  value that is `0` (falsy) or `NaN`, which the loop below mirrors by
  skipping `none` and `some 0`.
* For a user line, `extracted` is the `messageContent` produced by the
  ordered regex matchers plus metadata cleanup (lines 144–168; `""` when no
  pattern matched), and `username` is the extracted sender (defaulted to
  the session label by the source).
* For an assistant line, `extracted` is the flattened `responseText`
  (lines 197–203) and `username` is unused. -/
structure Entry where
  role : Role
  ts : Option Int
  extracted : String
  username : String
deriving DecidableEq, Repr

/-- The `source` field of an activity record. -/
structure ASource where
  type : String
  user : Option String
  chatType : Option String
deriving DecidableEq, Repr

/-- One element of the `activities` array built by `parseTranscript` and
`buildDashboardState` (timestamps as epoch ms, see header). -/
structure Activity where
  id : String
  type : String
  description : String
  timestamp : Int
  status : String
  duration : Option Int
  source : ASource
  sourceDisplay : String
deriving DecidableEq, Repr

/-- Which aggregator entry point a call went to. -/
inductive CallKind where
  | resp
  | compl
deriving DecidableEq, Repr

/-- One call of `trackResponseTime` / `trackCompletionTime` made during a
`parseTranscript` pass, instrumented with the timestamp of the assistant
entry that triggered it (so that cursor gating can be stated). -/
structure Call where
  kind : CallKind
  ms : Int
  entryTs : Int
  src : SourceTag
deriving DecidableEq, Repr

/-- The admission filter for an incoming user message (lines 171–175):
non-empty, no `HEARTBEAT`, no `Pre-compaction`, does not start with
`System:`, longer than 5 characters. -/
def admitIncoming (msg : String) : Bool :=
  !msg.isEmpty && !sContains msg "HEARTBEAT" && !sContains msg "Pre-compaction" &&
    !sStarts msg "System:" && msg.length > 5

/-- The admission filter for an assistant reply activity (lines 221–224):
non-empty, no `NO_REPLY`, no `HEARTBEAT_OK`, longer than 20 characters. -/
def admitMessage (txt : String) : Bool :=
  !txt.isEmpty && !sContains txt "NO_REPLY" && !sContains txt "HEARTBEAT_OK" &&
    txt.length > 20

/-- The loop state of one `parseTranscript` pass: accumulated activities
(`push` appends), accumulated aggregator calls in order, the running
`newestTimestamp`, and `lastUserTime`. -/
structure PassState where
  activities : List Activity
  calls : List Call
  newest : Int
  lastUser : Option Int
deriving Repr

/-- The body of the `for (const line of recentLines)` loop of
`parseTranscript` (lines 124–247) for one line.  `none` models a line on
which `JSON.parse` threw (skipped).  A missing (`none`) or zero timestamp
is skipped (`!timestamp || isNaN(timestamp)`). -/
def processLine (sessionId userLabel : String) (isDM : Bool) (lastTimestamp : Int)
    (st : PassState) (line : Option Entry) : PassState :=
  match line with
  | none => st
  | some e =>
    match e.ts with
    | none => st
    | some t =>
      if t = 0 then st
      else
        let newest := max st.newest t
        let isNew := lastTimestamp < t
        match e.role with
        | .user =>
          let st' : PassState := { st with newest := newest, lastUser := some t }
          if admitIncoming e.extracted then
            { st' with activities := st'.activities ++ [{
                id := "in-" ++ sessionId ++ "-" ++ toString t
                type := "incoming"
                description := e.extracted.take 250
                timestamp := t
                status := "completed"
                duration := none
                source := ⟨"slack", some e.username, some (if isDM then "dm" else "channel")⟩
                sourceDisplay :=
                  if isDM then e.username ++ " (DM)" else e.username ++ " (#channel)" }] }
          else st'
        | .assistant =>
          match st.lastUser with
          | none => { st with newest := newest }
          | some u =>
            let responseTime := t - u
            let src : SourceTag := ⟨userLabel, isDM⟩
            let calls' :=
              if isNew ∧ 100 < responseTime ∧ responseTime < 300000 then
                st.calls ++ [⟨.resp, responseTime, t, src⟩] ++
                  (if e.extracted.length > 100 then [⟨.compl, responseTime, t, src⟩] else [])
              else st.calls
            let acts' :=
              if admitMessage e.extracted then
                st.activities ++ [{
                  id := "out-" ++ sessionId ++ "-" ++ toString t
                  type := "message"
                  description := e.extracted.take 250
                  timestamp := t
                  status := "completed"
                  duration := some responseTime
                  source := ⟨"slack", some userLabel, some (if isDM then "dm" else "channel")⟩
                  sourceDisplay :=
                    if isDM then "to " ++ userLabel ++ " (DM)" else "in #channel" }]
              else st.activities
            { activities := acts', calls := calls', newest := newest, lastUser := none }
        | .other => { st with newest := newest }

/-- `lines.slice(-n)`: the last `n` elements. -/
def lastN (n : Nat) (l : List α) : List α := l.drop (l.length - n)

/-- `metrics.lastParsedTimestamps[sessionId] = v` on the association-list
model of the cursor map. -/
def setAssoc (k : String) (v : Int) : List (String × Int) → List (String × Int)
  | [] => [(k, v)]
  | (k', v') :: rest => if k' = k then (k, v) :: rest else (k', v') :: setAssoc k v rest

/-- `metrics.lastParsedTimestamps[sessionId] || 0` (a stored `0` is falsy
and also yields `0`, so this is plain lookup-with-default). -/
def cursorOf (sid : String) (m : List (String × Int)) : Int := (m.lookup sid).getD 0

/-- `parseTranscript(sessionFile, sessionInfo)` (lines 99–259), with the
file system made explicit: `file` is the parsed line list of the
transcript, `none` when the file does not exist or reading threw (both
return the empty activity list without updating anything).  Returns the
activities, the aggregator calls made during the pass (in order), and the
updated cursor map (lines 249–252: advanced to the maximum observed
timestamp only when it grew). -/
def parseTranscript (sessionId userLabel : String) (isDM : Bool)
    (file : Option (List (Option Entry))) (cursors : List (String × Int)) :
    List Activity × List Call × List (String × Int) :=
  match file with
  | none => ([], [], cursors)
  | some lines =>
    let lastTimestamp := cursorOf sessionId cursors
    let recent := lastN 100 lines
    let st := recent.foldl (processLine sessionId userLabel isDM lastTimestamp)
      { activities := [], calls := [], newest := lastTimestamp, lastUser := none }
    let cursors' :=
      if lastTimestamp < st.newest then setAssoc sessionId st.newest cursors else cursors
    (st.activities, st.calls, cursors')

/-- Replay one recorded aggregator call against the metrics state; the
sample is stamped with `now` (`Date.now()` at the moment of insertion),
not with the transcript entry's own timestamp. -/
def applyCall (now : Int) (m : Metrics) (c : Call) : Metrics :=
  match c.kind with
  | .resp => trackResponseTime c.ms now c.src m
  | .compl => trackCompletionTime c.ms now c.src m

/-- Replay the calls of a pass in order. -/
def applyCalls (now : Int) (m : Metrics) (cs : List Call) : Metrics :=
  cs.foldl (applyCall now) m

/-- The inputs of one extractor pass over one session's transcript. -/
structure Pass where
  sessionId : String
  userLabel : String
  isDM : Bool
  file : Option (List (Option Entry))

/-- Run one pass against a cursor map, returning the aggregator calls it
makes and the updated cursor map. -/
def runPass (cursors : List (String × Int)) (p : Pass) : List Call × List (String × Int) :=
  let r := parseTranscript p.sessionId p.userLabel p.isDM p.file cursors
  (r.2.1, r.2.2)

/-- The cursor map after a sequence of passes. -/
def cursorsAfter (c : List (String × Int)) (ps : List Pass) : List (String × Int) :=
  ps.foldl (fun c p => (runPass c p).2) c

/-- All aggregator calls made during a sequence of passes, each tagged with
the session the pass belonged to. -/
def taggedCalls (c : List (String × Int)) : List Pass → List (String × Call)
  | [] => []
  | p :: ps =>
    let r := runPass c p
    r.1.map (fun cl => (p.sessionId, cl)) ++ taggedCalls r.2 ps

/-- One entry of the session registry (`sessions.json`), merged with its map
key as in `Object.entries(sessionsData).map(([key, value]) => ({ key, ...value }))`
(line 264).  Optional fields model possibly-absent JSON fields;
`originLabel` is `origin?.label`.  An absent or empty `sessionFile` is
modelled by `none` (the source guards with JavaScript truthiness). -/
structure Session where
  key : String
  sessionId : String
  updatedAt : Option Int
  createdAt : Option Int
  label : Option String
  displayName : Option String
  model : Option String
  sessionFile : Option String
  task : Option String
  chatType : Option String
  originLabel : Option String
deriving DecidableEq, Repr

/-- `readSessions()` (lines 89–96) composed with the `Object.entries`
mapping of line 264: a missing or corrupt registry (read or parse threw)
yields the empty session list, never an error. -/
def readSessions (raw : Option (List Session)) : List Session := raw.getD []

/-- One element of the `cronJobs` array (lines 311–317). -/
structure CronJob where
  id : String
  name : String
  lastRun : Int
  status : String
  result : String
deriving DecidableEq, Repr

/-- One element of the `subAgents` array (lines 338–347). -/
structure SubAgentView where
  sessionKey : String
  label : String
  status : String
  task : Option String
  startedAt : Int
  model : Option String
  srcType : String
  sourceDisplay : String
deriving DecidableEq, Repr

/-- The `bri` block of the dashboard state (lines 398–405). -/
structure BriInfo where
  status : String
  currentTask : Option String
  model : String
  sessionKey : String
  uptime : Int
  lastActivity : Int
deriving DecidableEq, Repr

/-- The `stats` block (lines 409–415). -/
structure Stats where
  totalTasks24h : Nat
  activeSubAgents : Nat
  activeCronJobs : Nat
  avgResponseTime : Int
  avgCompletionTime : Int
deriving DecidableEq, Repr

/-- The snapshot returned by `buildDashboardState` (lines 397–417). -/
structure DashboardState where
  bri : BriInfo
  cronJobs : List CronJob
  subAgents : List SubAgentView
  recentActivity : List Activity
  stats : Stats
  lastUpdated : Int
deriving DecidableEq, Repr

/-- The status derivation of `buildDashboardState` (lines 378–380):
`active` under 10 s since last activity, `thinking` under 60 s, `idle`
otherwise. -/
def briStatusOf (timeSinceActivity : Int) : String :=
  if timeSinceActivity < 10000 then "active"
  else if timeSinceActivity < 60000 then "thinking"
  else "idle"

/-- `allActivities.sort((a, b) => new Date(b.timestamp) - new Date(a.timestamp))`
(line 366): stable sort, descending by timestamp.  `Array.prototype.sort`
is required to be stable, so any stable sort is behaviourally faithful. -/
def sortActivitiesDesc (l : List Activity) : List Activity :=
  List.insertionSort (fun a b => b.timestamp ≤ a.timestamp) l

/-- The `seenIds` filter of lines 364–371: keep the first occurrence of
each `id`. -/
def filterSeen (seen : List String) : List Activity → List Activity
  | [] => []
  | a :: rest =>
    if a.id ∈ seen then filterSeen seen rest
    else a :: filterSeen (a.id :: seen) rest

/-- The sort–dedupe–truncate block building `sortedActivities`
(lines 363–372). -/
def dedupeActivities (l : List Activity) : List Activity :=
  (filterSeen [] (sortActivitiesDesc l)).take 50

/-- `[...sessions].sort((a, b) => (b.updatedAt || 0) - (a.updatedAt || 0))`
(line 268): stable, descending by `updatedAt || 0` (for a number, `|| 0`
coincides with defaulting to `0`). -/
def sortSessionsDesc (l : List Session) : List Session :=
  List.insertionSort (fun a b => b.updatedAt.getD 0 ≤ a.updatedAt.getD 0) l

/-- The slack-session filter of lines 271–273. -/
def isSlackSession (s : Session) : Bool :=
  sContains s.key "slack:channel" || sContains s.key "slack:direct"

/-- `slackSessions[0] || sortedSessions.find(s => s.key?.includes(':main')) || sortedSessions[0]`
(line 276), on the already-sorted list. -/
def mainSessionOf (sortedSessions : List Session) : Option Session :=
  ((sortedSessions.filter isSlackSession).head?).orElse fun _ =>
    (sortedSessions.find? (fun s => sContains s.key ":main")).orElse fun _ =>
      sortedSessions.head?

/-- The cron identifier of a cron session (lines 300–301, 307–308):
`parts[3] || s.sessionId` over `s.key.split(':')`. -/
def cronIdOf (s : Session) : String :=
  let parts := s.key.splitOn ":"
  match parts.get? 3 with
  | some p => if p.isEmpty then s.sessionId else p
  | none => s.sessionId

/-- The `seenCronIds` filter of lines 298–304: keep the first session for
each cron id. -/
def filterSeenCron (seen : List String) : List Session → List Session
  | [] => []
  | s :: rest =>
    let cid := cronIdOf s
    if cid ∈ seen then filterSeenCron seen rest
    else s :: filterSeenCron (cid :: seen) rest

/-- The cron job projection of lines 305–318. -/
def mkCronJob (now : Int) (cronRuns : List Session) (s : Session) : CronJob :=
  let timeSince := now - s.updatedAt.getD 0
  let cronId := cronIdOf s
  let latestRun := cronRuns.find? (fun r => sContains r.key cronId)
  { id := cronId
    name := jsOrS s.label (jsOrS s.displayName "Cron Job")
    lastRun := jsOrI (latestRun.bind (fun r => r.updatedAt)) (jsOrI s.updatedAt now)
    status := if timeSince < 120000 then "running" else "completed"
    result := "Completed" }

/-- The cron activity records of lines 321–331. -/
def mkCronActivity (now : Int) (s : Session) : Activity :=
  { id := "cron-" ++ s.sessionId
    type := "cron"
    description := jsOrS s.label "Cron job"
    timestamp := jsOrI s.updatedAt now
    status := "completed"
    duration := none
    source := ⟨"cron", none, none⟩
    sourceDisplay := "Cron" }

/-- The sub-agent projection of lines 336–348. -/
def mkSubAgent (now : Int) (s : Session) : SubAgentView :=
  let timeSince := now - s.updatedAt.getD 0
  { sessionKey := if s.sessionId.isEmpty then s.key else s.sessionId
    label := jsOrS s.label (jsOrS s.displayName "Sub-agent")
    status := if timeSince < 120000 then "running" else "completed"
    task := jsOrSO s.task s.label
    startedAt := jsOrI s.createdAt (jsOrI s.updatedAt now)
    model := s.model
    srcType := "subagent"
    sourceDisplay := "Sub-agent" }

/-- The sub-agent activity records of lines 351–361. -/
def mkSubAgentActivity (now : Int) (s : Session) : Activity :=
  { id := "subagent-" ++ s.sessionId
    type := "subagent"
    description := jsOrS s.label "Sub-agent task"
    timestamp := jsOrI s.updatedAt now
    status := if now - s.updatedAt.getD 0 < 120000 then "running" else "completed"
    duration := none
    source := ⟨"subagent", none, none⟩
    sourceDisplay := "Sub-agent" }

/-- The transcript-parsing fold over the top slack sessions
(lines 279–286), threading the shared metrics: each parse advances the
cursor map and replays its aggregator calls (which stamp samples with
`now`). -/
def parseSlackStep (fsx : String → Option (List (Option Entry))) (now : Int)
    (acc : List Activity × Metrics) (s : Session) : List Activity × Metrics :=
  match s.sessionFile with
  | none => acc
  | some f =>
    let r := parseTranscript s.sessionId (jsOrS s.originLabel "Unknown")
      (s.chatType == some "direct") (fsx f) acc.2.lastParsedTimestamps
    let m' := applyCalls now { acc.2 with lastParsedTimestamps := r.2.2 } r.2.1
    (acc.1 ++ r.1, m')

/-- `buildDashboardState()` (lines 262–418), as a function of the registry
(`none` when `sessions.json` is missing or corrupt), the transcript file
system, the metrics state and the current instant.  Returns the snapshot
and the updated metrics state.  In the branch computing `uptime`, a
session with neither `createdAt` nor `updatedAt` makes the source compute
`NaN`; that branch is modelled as `0` (no claim depends on it). -/
def buildDashboardState (registry : Option (List Session))
    (fsx : String → Option (List (Option Entry))) (m0 : Metrics) (now : Int) :
    DashboardState × Metrics :=
  let sessions := readSessions registry
  let sortedSessions := sortSessionsDesc sessions
  let slackSessions := sortedSessions.filter isSlackSession
  let mainSession := mainSessionOf sortedSessions
  let parsed := (slackSessions.take 10).foldl (parseSlackStep fsx now) ([], m0)
  let m1 := parsed.2
  let cronSessions :=
    sortedSessions.filter (fun s => sContains s.key "cron:" && !sContains s.key ":run:")
  let cronRuns :=
    (sortedSessions.filter (fun s => sContains s.key "cron:" && sContains s.key ":run:")).take 30
  let cronJobs := (filterSeenCron [] (cronSessions.take 20)).map (mkCronJob now cronRuns)
  let subAgentSessions := sortedSessions.filter (fun s => sContains s.key "subagent:")
  let subAgents := (subAgentSessions.take 15).map (mkSubAgent now)
  let allActivities := parsed.1 ++ (cronRuns.take 15).map (mkCronActivity now) ++
    (subAgentSessions.take 10).map (mkSubAgentActivity now)
  let sortedActivities := dedupeActivities allActivities
  let lastActivityMs := jsOrI (mainSession.bind (fun s => s.updatedAt)) 0
  let timeSinceActivity := now - lastActivityMs
  let oneDayAgo := now - 86400000
  let tasks24h := (sessions.filter (fun s => oneDayAgo < s.updatedAt.getD 0)).length
  let earliest :=
    (List.insertionSort
      (fun a b => jsOrI a.createdAt (jsOrI a.updatedAt now) ≤ jsOrI b.createdAt (jsOrI b.updatedAt now))
      sessions).head?
  let uptime :=
    match earliest with
    | none => 0
    | some s =>
      match jsOrIO s.createdAt s.updatedAt with
      | some t => (now - t) / 1000
      | none => 0
  ({ bri :=
      { status := briStatusOf timeSinceActivity
        currentTask :=
          (sortedActivities.find? (fun a => a.type == "incoming")).map
            (fun a => a.description.take 150)
        model := jsOrS (mainSession.bind (fun s => s.model)) "claude-opus-4-5"
        sessionKey := jsOrS (mainSession.map (fun s => s.sessionId)) "main"
        uptime := min uptime (86400 * 30)
        lastActivity := lastActivityMs }
     cronJobs := cronJobs
     subAgents := subAgents
     recentActivity := sortedActivities
     stats :=
      { totalTasks24h := tasks24h
        activeSubAgents := (subAgents.filter (fun s => s.status == "running")).length
        activeCronJobs := (cronJobs.filter (fun c => c.status == "running")).length
        avgResponseTime := getAvgResponseTime now m1
        avgCompletionTime := getAvgCompletionTime now m1 }
     lastUpdated := now }, m1)

/-- The polling loop of the SSE stream route (`GET`, lines 183–197): per
tick, a freshly built snapshot (`none` when `fetchStatus` returned null)
is broadcast exactly when its serialization differs from the last
published one, or unconditionally in demo mode.  `JSON.stringify` is
deterministic and injective on snapshot values, so comparison of the
serializations is modelled as structural equality of snapshots. -/
def streamTicks (demoMode : Bool) (last : Option DashboardState) :
    List (Option DashboardState) → List DashboardState
  | [] => []
  | t :: ts =>
    match t with
    | none => streamTicks demoMode last ts
    | some s =>
      if some s ≠ last ∨ demoMode then s :: streamTicks demoMode (some s) ts
      else streamTicks demoMode last ts

/-- The whole stream (lines 176–197): the initial snapshot is sent
unconditionally when available (`lastState` starts as the empty string,
which no serialization equals), then the tick loop runs. -/
def streamEmits (demoMode : Bool) (init : Option DashboardState)
    (ticks : List (Option DashboardState)) : List DashboardState :=
  match init with
  | some s => s :: streamTicks demoMode (some s) ticks
  | none => streamTicks demoMode none ticks

/-- Reference definition, following the spec's words for §4.2 / §8
"Average correctness": the exact arithmetic mean (as a rational) of the
samples whose timestamp lies within the trailing 24-hour window, `0` when
none qualify.  Used to compare the implementation's accessor against the
spec's "exactly the arithmetic mean". -/
def specAverageExact (now : Int) (samples : List Sample) : ℚ :=
  let recent := samples.filter (fun r => now - 86400000 < r.timestamp)
  if recent.length = 0 then 0
  else ((recent.map (fun r => (r.ms : ℚ))).sum) / recent.length

/-! ### Helper lemmas -/

theorem jsRound_eq_floor (s : Int) (n : Nat) (hn : 0 < n) :
    jsRound s n = ⌊(s : ℚ) / n + 1 / 2⌋ := by
  unfold jsRound
  have h := Rat.floor_intCast_div_natCast (2 * s + n) (2 * n)
  have hcast : ((2 * s + (n : Int) : Int) : ℚ) / ((2 * n : ℕ) : ℚ) =
      (s : ℚ) / n + 1 / 2 := by
    have hn' : ((n : ℚ)) ≠ 0 := by positivity
    push_cast
    field_simp
    ring
  rw [← hcast]
  rw [h]
  push_cast
  ring_nf

theorem pushBounded_head (s : Sample) (l : List Sample) :
    (pushBounded s l).head? = some s := by
  show (if (s :: l).length > MAX_METRICS then (s :: l).dropLast else s :: l).head? =
    some s
  split_ifs with hl
  · cases l with
    | nil => simp [MAX_METRICS] at hl
    | cons a as => simp
  · rfl

theorem foldl_add_ms (l : List Sample) : ∀ a : Int,
    l.foldl (fun s r => s + r.ms) a = a + (l.map (fun r => r.ms)).sum := by
  induction l with
  | nil => intro a; simp
  | cons x xs ih =>
    intro a
    simp only [List.foldl_cons, List.map_cons, List.sum_cons, ih]
    ring

/-! ### C8: status state machine -/

/-- Claim C8: for every build, the assistant status is a pure function of
time since last activity with three states and `idle` as the default:
`active` below 10 s, `thinking` below 60 s, `idle` otherwise; in
particular 0 ms since last activity yields `active`, 45 s yields
`thinking`, and 5 min yields `idle`; and `buildDashboardState` derives its
status exactly this way from the main session's last-update time. -/
theorem claim_C8 : ∀ t : Int,
    (briStatusOf t = "active" ↔ t < 10000) ∧
    (briStatusOf t = "thinking" ↔ 10000 ≤ t ∧ t < 60000) ∧
    (briStatusOf t = "idle" ↔ 60000 ≤ t) ∧
    briStatusOf 0 = "active" ∧ briStatusOf 45000 = "thinking" ∧
    briStatusOf (5 * 60000) = "idle" ∧
    (∀ registry fsx m now,
      (buildDashboardState registry fsx m now).1.bri.status =
        briStatusOf (now - jsOrI
          ((mainSessionOf (sortSessionsDesc (readSessions registry))).bind
            (fun s => s.updatedAt)) 0)) := by
  intro t
  have key : (briStatusOf t = "active" ↔ t < 10000) ∧
      (briStatusOf t = "thinking" ↔ 10000 ≤ t ∧ t < 60000) ∧
      (briStatusOf t = "idle" ↔ 60000 ≤ t) := by
    unfold briStatusOf
    split_ifs with h1 h2
    · exact ⟨iff_of_true rfl h1,
        iff_of_false (by decide) (by omega),
        iff_of_false (by decide) (by omega)⟩
    · exact ⟨iff_of_false (by decide) h1,
        iff_of_true rfl ⟨by omega, h2⟩,
        iff_of_false (by decide) (by omega)⟩
    · exact ⟨iff_of_false (by decide) h1,
        iff_of_false (by decide) (by omega),
        iff_of_true rfl (by omega)⟩
  refine ⟨key.1, key.2.1, key.2.2, by decide, by decide, by decide, ?_⟩
  intro registry fsx m now
  rfl

/-! ### C5: sanity-window filters at insert -/

/-- A fixed instant for concrete examples. -/
def specExampleT : Int := 1700000000000

/-- The spec's §8 example, replayed against the implementation: three
response-time insertions of 500 ms, 1500 ms and 9000000 ms within the
last hour. -/
def specExampleMetrics : Metrics :=
  trackResponseTime 9000000 (specExampleT - 600000) ⟨"KP", true⟩
    (trackResponseTime 1500 (specExampleT - 1800000) ⟨"KP", true⟩
      (trackResponseTime 500 (specExampleT - 3600000) ⟨"KP", true⟩ initialMetrics))

/-- Counterexample to claim C5 as stated: the 500 ms sample, although
positive and far from implausibly large, is NOT recorded
(`trackResponseTime` requires at least 1000 ms), so on the spec's example
only the 1500 ms sample survives and the 24-hour average is 1500 ms,
not 1000 ms. -/
theorem counterexample_C5 :
    trackResponseTime 500 (specExampleT - 3600000) ⟨"KP", true⟩ initialMetrics =
      initialMetrics ∧
    specExampleMetrics.responseTimes =
      [⟨1500, specExampleT - 1800000, ⟨"KP", true⟩⟩] ∧
    getAvgResponseTime specExampleT specExampleMetrics = 1500 ∧
    (1500 : Int) ≠ 1000 := by
  refine ⟨by decide, by decide, by decide, by decide⟩

/-- Claim C5 (amended): a response-time sample is recorded iff
`1000 ≤ ms < 300000` and a completion-time sample iff
`2000 ≤ ms < 600000` (the lower bounds are 1 s / 2 s, not 0); an
out-of-range value leaves the metrics state unchanged and raises no
error; on the spec's example only the 1500 ms sample is recorded, so the
24-hour average is 1500 ms. -/
theorem claim_C5_amended : ∀ (ms now : Int) (src : SourceTag) (m : Metrics),
    (1000 ≤ ms ∧ ms < 300000 →
      (trackResponseTime ms now src m).responseTimes.head? = some ⟨ms, now, src⟩) ∧
    (¬(1000 ≤ ms ∧ ms < 300000) → trackResponseTime ms now src m = m) ∧
    (2000 ≤ ms ∧ ms < 600000 →
      (trackCompletionTime ms now src m).completionTimes.head? = some ⟨ms, now, src⟩) ∧
    (¬(2000 ≤ ms ∧ ms < 600000) → trackCompletionTime ms now src m = m) ∧
    getAvgResponseTime specExampleT specExampleMetrics = 1500 := by
  intro ms now src m
  refine ⟨?_, ?_, ?_, ?_, by decide⟩
  · intro h
    unfold trackResponseTime
    rw [if_pos h]
    exact pushBounded_head _ _
  · intro h
    unfold trackResponseTime
    rw [if_neg h]
  · intro h
    unfold trackCompletionTime
    rw [if_pos h]
    exact pushBounded_head _ _
  · intro h
    unfold trackCompletionTime
    rw [if_neg h]

/-- Closed instantiation of `claim_C5_amended`. -/
theorem claim_C5_witness :
    ((1000 : Int) ≤ 1500 ∧ (1500 : Int) < 300000) ∧
    (trackResponseTime 1500 7 ⟨"u", false⟩ initialMetrics).responseTimes.head? =
      some ⟨1500, 7, ⟨"u", false⟩⟩ ∧
    ¬((1000 : Int) ≤ 500 ∧ (500 : Int) < 300000) ∧
    trackResponseTime 500 7 ⟨"u", false⟩ initialMetrics = initialMetrics ∧
    ((2000 : Int) ≤ 2500 ∧ (2500 : Int) < 600000) ∧
    (trackCompletionTime 2500 7 ⟨"u", false⟩ initialMetrics).completionTimes.head? =
      some ⟨2500, 7, ⟨"u", false⟩⟩ ∧
    ¬((2000 : Int) ≤ 700000 ∧ (700000 : Int) < 600000) ∧
    trackCompletionTime 700000 7 ⟨"u", false⟩ initialMetrics = initialMetrics := by
  refine ⟨by decide, (claim_C5_amended 1500 7 ⟨"u", false⟩ initialMetrics).1 (by decide),
    by decide, (claim_C5_amended 500 7 ⟨"u", false⟩ initialMetrics).2.1 (by decide),
    by decide, (claim_C5_amended 2500 7 ⟨"u", false⟩ initialMetrics).2.2.1 (by decide),
    by decide, (claim_C5_amended 700000 7 ⟨"u", false⟩ initialMetrics).2.2.2.1 (by decide)⟩

/-! ### C2: 24-hour average accessors -/

/-- Two in-window response samples whose mean is not an integer. -/
def c2Metrics : Metrics :=
  trackResponseTime 1001 specExampleT ⟨"KP", true⟩
    (trackResponseTime 1000 specExampleT ⟨"KP", true⟩ initialMetrics)

/-- Counterexample to claim C2 as stated: the accessor returns
`Math.round` of the mean, which differs from the exact arithmetic mean
whenever the mean is not an integer — for samples of 1000 ms and 1001 ms
the exact mean is 1000.5 ms but `getAvgResponseTime` returns 1001. -/
theorem counterexample_C2 :
    (getAvgResponseTime specExampleT c2Metrics : ℚ) ≠
      specAverageExact specExampleT c2Metrics.responseTimes := by
  have h1 : getAvgResponseTime specExampleT c2Metrics = 1001 := by decide
  have hl : c2Metrics.responseTimes =
      [⟨1001, specExampleT, ⟨"KP", true⟩⟩, ⟨1000, specExampleT, ⟨"KP", true⟩⟩] := by
    decide
  have h2 : specAverageExact specExampleT c2Metrics.responseTimes = 2001 / 2 := by
    rw [hl]
    unfold specAverageExact
    rw [if_neg (by decide)]
    · norm_num
  rw [h1, h2]
  norm_num

theorem cast_sum_ms (l : List Sample) :
    (((l.map (fun r => r.ms)).sum : Int) : ℚ) = (l.map (fun r => (r.ms : ℚ))).sum := by
  induction l with
  | nil => simp
  | cons x xs ih => simp [ih]

theorem avg_eq_floor_mean (now : Int) (samples : List Sample)
    (h : samples.filter (fun r => now - 86400000 < r.timestamp) ≠ []) :
    (if (samples.filter (fun r => now - 86400000 < r.timestamp)).length = 0 then 0
      else jsRound
        ((samples.filter (fun r => now - 86400000 < r.timestamp)).foldl
          (fun s r => s + r.ms) 0)
        (samples.filter (fun r => now - 86400000 < r.timestamp)).length) =
      ⌊specAverageExact now samples + 1 / 2⌋ := by
  have hlen : (samples.filter (fun r => now - 86400000 < r.timestamp)).length ≠ 0 :=
    fun hc => h (List.length_eq_zero.mp hc)
  have hpos : 0 < (samples.filter (fun r => now - 86400000 < r.timestamp)).length :=
    Nat.pos_of_ne_zero hlen
  rw [if_neg hlen, foldl_add_ms _ 0, zero_add, jsRound_eq_floor _ _ hpos]
  have hEq : (((((samples.filter (fun r => now - 86400000 < r.timestamp)).map
        (fun r => r.ms)).sum : Int) : ℚ)) /
        ((samples.filter (fun r => now - 86400000 < r.timestamp)).length : ℚ) =
      specAverageExact now samples := by
    simp only [specAverageExact]
    rw [if_neg hlen, cast_sum_ms]
  rw [hEq]

/-- Claim C2 (amended): the 24-hour average accessors return the
arithmetic mean — rounded half-up to the nearest integer, as
`Math.round` does — of the stored samples whose timestamp lies strictly
within the trailing 24 h window ending at `now`, and return 0 (not an
error) when no stored sample falls in the window. -/
theorem claim_C2_amended : ∀ (now : Int) (m : Metrics),
    (m.responseTimes.filter (fun r => now - 86400000 < r.timestamp) = [] →
      getAvgResponseTime now m = 0) ∧
    (m.responseTimes.filter (fun r => now - 86400000 < r.timestamp) ≠ [] →
      getAvgResponseTime now m =
        ⌊specAverageExact now m.responseTimes + 1 / 2⌋) ∧
    (m.completionTimes.filter (fun r => now - 86400000 < r.timestamp) = [] →
      getAvgCompletionTime now m = 0) ∧
    (m.completionTimes.filter (fun r => now - 86400000 < r.timestamp) ≠ [] →
      getAvgCompletionTime now m =
        ⌊specAverageExact now m.completionTimes + 1 / 2⌋) := by
  intro now m
  refine ⟨?_, ?_, ?_, ?_⟩
  · intro h
    simp only [getAvgResponseTime]
    rw [h]
    rfl
  · intro h
    simp only [getAvgResponseTime]
    exact avg_eq_floor_mean now m.responseTimes h
  · intro h
    simp only [getAvgCompletionTime]
    rw [h]
    rfl
  · intro h
    simp only [getAvgCompletionTime]
    exact avg_eq_floor_mean now m.completionTimes h

/-- Closed instantiation of `claim_C2_amended`. -/
theorem claim_C2_witness :
    initialMetrics.responseTimes.filter
      (fun r => specExampleT - 86400000 < r.timestamp) = [] ∧
    getAvgResponseTime specExampleT initialMetrics = 0 ∧
    c2Metrics.responseTimes.filter
      (fun r => specExampleT - 86400000 < r.timestamp) ≠ [] ∧
    getAvgResponseTime specExampleT c2Metrics =
      ⌊specAverageExact specExampleT c2Metrics.responseTimes + 1 / 2⌋ := by
  refine ⟨by decide, (claim_C2_amended specExampleT initialMetrics).1 (by decide),
    by decide, (claim_C2_amended specExampleT c2Metrics).2.1 (by decide)⟩

/-! ### C4: bounded, most-recent-first series -/

/-- One aggregator insertion: the value, the wall-clock instant of the
call, and the source tag. -/
structure Ins where
  ms : Int
  t : Int
  src : SourceTag
deriving DecidableEq, Repr

/-- The sample an accepted insertion stores. -/
def mkSample (i : Ins) : Sample := ⟨i.ms, i.t, i.src⟩

/-- A sequence of `trackResponseTime` calls. -/
def runRespInserts (l : List Ins) (m : Metrics) : Metrics :=
  l.foldl (fun m i => trackResponseTime i.ms i.t i.src m) m

/-- A sequence of `trackCompletionTime` calls. -/
def runComplInserts (l : List Ins) (m : Metrics) : Metrics :=
  l.foldl (fun m i => trackCompletionTime i.ms i.t i.src m) m

theorem pushBounded_eq_take (s : Sample) (l : List Sample)
    (h : l.length ≤ MAX_METRICS) :
    pushBounded s l = (s :: l).take MAX_METRICS := by
  show (if (s :: l).length > MAX_METRICS then (s :: l).dropLast else s :: l) =
    (s :: l).take MAX_METRICS
  split_ifs with hl
  · rw [List.dropLast_eq_take]
    congr 1
    simp only [List.length_cons] at hl ⊢
    omega
  · rw [List.take_of_length_le]
    simp only [List.length_cons] at hl ⊢
    omega

theorem length_pushBounded_le (s : Sample) (l : List Sample)
    (h : l.length ≤ MAX_METRICS) :
    (pushBounded s l).length ≤ MAX_METRICS := by
  rw [pushBounded_eq_take s l h]
  simp [List.length_take]

theorem take_append_take {α : Type} (A B : List α) (n : Nat) :
    (A ++ B.take n).take n = (A ++ B).take n := by
  rw [List.take_append_eq_append_take, List.take_append_eq_append_take,
    List.take_take]
  congr 1
  rw [min_eq_left]
  omega

theorem foldl_trackResp_responseTimes (l : List Ins) : ∀ (m : Metrics),
    (∀ i ∈ l, 1000 ≤ i.ms ∧ i.ms < 300000) →
    m.responseTimes.length ≤ MAX_METRICS →
    (runRespInserts l m).responseTimes =
      ((l.map mkSample).reverse ++ m.responseTimes).take MAX_METRICS := by
  induction l with
  | nil =>
    intro m _ hm
    simp only [runRespInserts, List.foldl_nil, List.map_nil, List.reverse_nil,
      List.nil_append]
    rw [List.take_of_length_le hm]
  | cons i rest ih =>
    intro m hall hm
    have hi := hall i (List.mem_cons_self i rest)
    have step : (trackResponseTime i.ms i.t i.src m).responseTimes =
        (mkSample i :: m.responseTimes).take MAX_METRICS := by
      unfold trackResponseTime
      rw [if_pos hi]
      exact pushBounded_eq_take _ _ hm
    have hlen : (trackResponseTime i.ms i.t i.src m).responseTimes.length ≤
        MAX_METRICS := by
      rw [step]
      simp [List.length_take]
    have ihr := ih (trackResponseTime i.ms i.t i.src m)
      (fun j hj => hall j (List.mem_cons_of_mem i hj)) hlen
    show (runRespInserts rest (trackResponseTime i.ms i.t i.src m)).responseTimes = _
    rw [ihr, step, take_append_take, List.map_cons, List.reverse_cons,
      List.append_assoc]
    rfl

theorem foldl_trackCompl_completionTimes (l : List Ins) : ∀ (m : Metrics),
    (∀ i ∈ l, 2000 ≤ i.ms ∧ i.ms < 600000) →
    m.completionTimes.length ≤ MAX_METRICS →
    (runComplInserts l m).completionTimes =
      ((l.map mkSample).reverse ++ m.completionTimes).take MAX_METRICS := by
  induction l with
  | nil =>
    intro m _ hm
    simp only [runComplInserts, List.foldl_nil, List.map_nil, List.reverse_nil,
      List.nil_append]
    rw [List.take_of_length_le hm]
  | cons i rest ih =>
    intro m hall hm
    have hi := hall i (List.mem_cons_self i rest)
    have step : (trackCompletionTime i.ms i.t i.src m).completionTimes =
        (mkSample i :: m.completionTimes).take MAX_METRICS := by
      unfold trackCompletionTime
      rw [if_pos hi]
      exact pushBounded_eq_take _ _ hm
    have hlen : (trackCompletionTime i.ms i.t i.src m).completionTimes.length ≤
        MAX_METRICS := by
      rw [step]
      simp [List.length_take]
    have ihr := ih (trackCompletionTime i.ms i.t i.src m)
      (fun j hj => hall j (List.mem_cons_of_mem i hj)) hlen
    show (runComplInserts rest (trackCompletionTime i.ms i.t i.src m)).completionTimes = _
    rw [ihr, step, take_append_take, List.map_cons, List.reverse_cons,
      List.append_assoc]
    rfl

theorem recent_take_ge_dropped (l : List Ins)
    (hc : List.Chain' (fun a b => a.t ≤ b.t) l) :
    ∀ a ∈ ((l.map mkSample).reverse).take MAX_METRICS,
    ∀ b ∈ ((l.map mkSample).reverse).drop MAX_METRICS,
      b.timestamp ≤ a.timestamp := by
  haveI : IsTrans Ins (fun a b => a.t ≤ b.t) := ⟨fun _ _ _ h1 h2 => le_trans h1 h2⟩
  have hp : List.Pairwise (fun a b => a.t ≤ b.t) l := List.chain'_iff_pairwise.mp hc
  have hpm : List.Pairwise (fun a b : Sample => a.timestamp ≤ b.timestamp)
      (l.map mkSample) := by
    refine List.Pairwise.map mkSample ?_ hp
    intro a b hab
    exact hab
  have hpr : List.Pairwise (fun a b : Sample => b.timestamp ≤ a.timestamp)
      ((l.map mkSample).reverse) := List.pairwise_reverse.mpr hpm
  have hsplit := List.take_append_drop MAX_METRICS ((l.map mkSample).reverse)
  rw [← hsplit] at hpr
  exact (List.pairwise_append.mp hpr).2.2

/-- Claim C4: each latency series is a bounded, most-recent-first sequence
of capacity `MAX_METRICS` = 500: every accepted insertion prepends the new
sample and evicts the oldest when full, so after `M > 500` accepted
insertions the series holds exactly the 500 most recently inserted
samples (in most-recent-first order), and — when the insertion instants
are non-decreasing, as `Date.now()` is — every retained sample's
timestamp is at least every evicted sample's timestamp. -/
theorem claim_C4 : ∀ (l lc : List Ins),
    MAX_METRICS < l.length →
    (∀ i ∈ l, 1000 ≤ i.ms ∧ i.ms < 300000) →
    MAX_METRICS < lc.length →
    (∀ i ∈ lc, 2000 ≤ i.ms ∧ i.ms < 600000) →
    ((runRespInserts l initialMetrics).responseTimes =
        ((l.map mkSample).reverse).take MAX_METRICS ∧
      (runRespInserts l initialMetrics).responseTimes.length = MAX_METRICS ∧
      (List.Chain' (fun a b => a.t ≤ b.t) l →
        ∀ a ∈ (runRespInserts l initialMetrics).responseTimes,
        ∀ b ∈ ((l.map mkSample).reverse).drop MAX_METRICS,
          b.timestamp ≤ a.timestamp)) ∧
    ((runComplInserts lc initialMetrics).completionTimes =
        ((lc.map mkSample).reverse).take MAX_METRICS ∧
      (runComplInserts lc initialMetrics).completionTimes.length = MAX_METRICS ∧
      (List.Chain' (fun a b => a.t ≤ b.t) lc →
        ∀ a ∈ (runComplInserts lc initialMetrics).completionTimes,
        ∀ b ∈ ((lc.map mkSample).reverse).drop MAX_METRICS,
          b.timestamp ≤ a.timestamp)) := by
  intro l lc hlen hall hlenc hallc
  have h1 : (runRespInserts l initialMetrics).responseTimes =
      ((l.map mkSample).reverse).take MAX_METRICS := by
    have := foldl_trackResp_responseTimes l initialMetrics hall (by simp [initialMetrics])
    simpa [initialMetrics] using this
  have h2 : (runComplInserts lc initialMetrics).completionTimes =
      ((lc.map mkSample).reverse).take MAX_METRICS := by
    have := foldl_trackCompl_completionTimes lc initialMetrics hallc (by simp [initialMetrics])
    simpa [initialMetrics] using this
  refine ⟨⟨h1, ?_, ?_⟩, h2, ?_, ?_⟩
  · rw [h1]
    simp only [List.length_take, List.length_reverse, List.length_map]
    omega
  · intro hc a ha b hb
    rw [h1] at ha
    exact recent_take_ge_dropped l hc a ha b hb
  · rw [h2]
    simp only [List.length_take, List.length_reverse, List.length_map]
    omega
  · intro hc a ha b hb
    rw [h2] at ha
    exact recent_take_ge_dropped lc hc a ha b hb

/-- Concrete over-capacity response insertion list (501 accepted calls). -/
def c4RespList : List Ins := List.replicate 501 ⟨1500, 7, ⟨"u", false⟩⟩

/-- Concrete over-capacity completion insertion list (501 accepted calls). -/
def c4ComplList : List Ins := List.replicate 501 ⟨2500, 7, ⟨"u", false⟩⟩

/-- Closed instantiation of `claim_C4`. -/
theorem claim_C4_witness :
    (MAX_METRICS < c4RespList.length ∧
      (∀ i ∈ c4RespList, 1000 ≤ i.ms ∧ i.ms < 300000) ∧
      MAX_METRICS < c4ComplList.length ∧
      (∀ i ∈ c4ComplList, 2000 ≤ i.ms ∧ i.ms < 600000)) ∧
    ((runRespInserts c4RespList initialMetrics).responseTimes =
        ((c4RespList.map mkSample).reverse).take MAX_METRICS ∧
      (runRespInserts c4RespList initialMetrics).responseTimes.length = MAX_METRICS ∧
      (List.Chain' (fun a b => a.t ≤ b.t) c4RespList →
        ∀ a ∈ (runRespInserts c4RespList initialMetrics).responseTimes,
        ∀ b ∈ ((c4RespList.map mkSample).reverse).drop MAX_METRICS,
          b.timestamp ≤ a.timestamp)) ∧
    ((runComplInserts c4ComplList initialMetrics).completionTimes =
        ((c4ComplList.map mkSample).reverse).take MAX_METRICS ∧
      (runComplInserts c4ComplList initialMetrics).completionTimes.length = MAX_METRICS ∧
      (List.Chain' (fun a b => a.t ≤ b.t) c4ComplList →
        ∀ a ∈ (runComplInserts c4ComplList initialMetrics).completionTimes,
        ∀ b ∈ ((c4ComplList.map mkSample).reverse).drop MAX_METRICS,
          b.timestamp ≤ a.timestamp)) := by
  have h1 : MAX_METRICS < c4RespList.length := by
    rw [c4RespList, List.length_replicate]
    decide
  have h2 : ∀ i ∈ c4RespList, 1000 ≤ i.ms ∧ i.ms < 300000 := by
    intro i hi
    rw [c4RespList, List.mem_replicate] at hi
    rw [hi.2]
    exact ⟨by decide, by decide⟩
  have h3 : MAX_METRICS < c4ComplList.length := by
    rw [c4ComplList, List.length_replicate]
    decide
  have h4 : ∀ i ∈ c4ComplList, 2000 ≤ i.ms ∧ i.ms < 600000 := by
    intro i hi
    rw [c4ComplList, List.mem_replicate] at hi
    rw [hi.2]
    exact ⟨by decide, by decide⟩
  exact ⟨⟨h1, h2, h3, h4⟩, claim_C4 c4RespList c4ComplList h1 h2 h3 h4⟩

/-! ### C6: activity deduplication -/

theorem filterSeen_ids (l : List Activity) : ∀ seen : List String,
    ((filterSeen seen l).map (fun a => a.id)).Nodup ∧
    (∀ x ∈ filterSeen seen l, x.id ∉ seen) := by
  induction l with
  | nil =>
    intro seen
    refine ⟨by simp [filterSeen], ?_⟩
    intro x hx
    simp [filterSeen] at hx
  | cons a rest ih =>
    intro seen
    by_cases ha : a.id ∈ seen
    · rw [show filterSeen seen (a :: rest) = filterSeen seen rest by
        simp [filterSeen, ha]]
      exact ih seen
    · rw [show filterSeen seen (a :: rest) = a :: filterSeen (a.id :: seen) rest by
        simp [filterSeen, ha]]
      refine ⟨?_, ?_⟩
      · rw [List.map_cons]
        rw [List.nodup_cons]
        refine ⟨?_, (ih (a.id :: seen)).1⟩
        intro hmem
        rcases List.mem_map.mp hmem with ⟨x, hx, hxid⟩
        have := (ih (a.id :: seen)).2 x hx
        rw [hxid] at this
        exact this (List.mem_cons_self _ _)
      · intro x hx
        rcases List.mem_cons.mp hx with hxa | hxr
        · rw [hxa]
          exact ha
        · have := (ih (a.id :: seen)).2 x hxr
          intro hcon
          exact this (List.mem_cons_of_mem _ hcon)

theorem filterSeen_subset (l : List Activity) : ∀ (seen : List String)
    (x : Activity), x ∈ filterSeen seen l → x ∈ l := by
  induction l with
  | nil =>
    intro seen x hx
    simp [filterSeen] at hx
  | cons a rest ih =>
    intro seen x hx
    by_cases ha : a.id ∈ seen
    · rw [show filterSeen seen (a :: rest) = filterSeen seen rest by
        simp [filterSeen, ha]] at hx
      exact List.mem_cons_of_mem a (ih seen x hx)
    · rw [show filterSeen seen (a :: rest) = a :: filterSeen (a.id :: seen) rest by
        simp [filterSeen, ha]] at hx
      rcases List.mem_cons.mp hx with hxa | hxr
      · rw [hxa]
        exact List.mem_cons_self a rest
      · exact List.mem_cons_of_mem a (ih (a.id :: seen) x hxr)

/-- Two incoming activities with identical descriptions and categories,
5 seconds apart, with the ids the extractor derives (which embed the
timestamp, hence differ). -/
def actA : Activity :=
  ⟨"in-s-1000000", "incoming", "checking the dashboard build", 1000000,
    "completed", none, ⟨"slack", some "KP", some "dm"⟩, "KP (DM)"⟩

/-- Same as `actA`, 5 s later. -/
def actB : Activity :=
  ⟨"in-s-1005000", "incoming", "checking the dashboard build", 1005000,
    "completed", none, ⟨"slack", some "KP", some "dm"⟩, "KP (DM)"⟩

/-- Same as `actA`, 10 min later. -/
def actC : Activity :=
  ⟨"in-s-1600000", "incoming", "checking the dashboard build", 1600000,
    "completed", none, ⟨"slack", some "KP", some "dm"⟩, "KP (DM)"⟩

/-- Counterexample to claim C6 as stated: two candidates with identical
normalized descriptions and category, 5 seconds apart, are NOT deduped to
one — the pipeline's only duplicate test is identity of the derived `id`
(which embeds the timestamp), so both survive. -/
theorem counterexample_C6 :
    dedupeActivities [actA, actB] = [actB, actA] ∧
    actA.description = actB.description ∧
    actA.type = actB.type ∧
    actB.timestamp - actA.timestamp = 5000 ∧
    (dedupeActivities [actA, actB]).length ≠ 1 := by
  refine ⟨by decide, by decide, by decide, by decide, by decide⟩

/-- Claim C6 (amended): two activity candidates are treated as duplicates
iff they share an identical derived identifier — the recent-activity list
keeps exactly the first occurrence (in descending-time order) of each
`id` and never contains two entries with the same `id`; there is no
normalized-description/time-window test, so identical-description pairs
5 seconds apart (distinct ids) are both retained, just as 10 minutes
apart. -/
theorem claim_C6_amended : ∀ (l : List Activity) (a b : Activity),
    ((dedupeActivities l).map (fun x => x.id)).Nodup ∧
    (∀ x ∈ dedupeActivities l, x ∈ l) ∧
    (a.id = b.id → (dedupeActivities [a, b]).length = 1) ∧
    dedupeActivities [actA, actB] = [actB, actA] ∧
    dedupeActivities [actA, actC] = [actC, actA] := by
  intro l a b
  refine ⟨?_, ?_, ?_, by decide, by decide⟩
  · unfold dedupeActivities
    rw [List.map_take]
    exact List.Nodup.sublist (List.take_sublist _ _)
      ((filterSeen_ids (sortActivitiesDesc l) []).1)
  · intro x hx
    unfold dedupeActivities at hx
    have hx1 : x ∈ filterSeen [] (sortActivitiesDesc l) :=
      List.mem_of_mem_take hx
    have hx2 : x ∈ sortActivitiesDesc l :=
      filterSeen_subset (sortActivitiesDesc l) [] x hx1
    exact (List.perm_insertionSort _ l).subset hx2
  · intro hab
    unfold dedupeActivities sortActivitiesDesc
    simp only [List.insertionSort, List.orderedInsert]
    split_ifs with hr
    · simp [filterSeen, hab]
    · simp [filterSeen, hab.symm]

/-- Closed instantiation of `claim_C6_amended`. -/
theorem claim_C6_witness :
    actA ∈ dedupeActivities [actA] ∧
    actA ∈ [actA] ∧
    actA.id = actA.id ∧
    (dedupeActivities [actA, actA]).length = 1 := by
  refine ⟨by decide, (claim_C6_amended [actA] actA actA).2.1 actA (by decide), rfl,
    (claim_C6_amended [actA] actA actA).2.2.1 rfl⟩

/-! ### C7: change-gated publishing -/

theorem streamTicks_chain_from (ts : List (Option DashboardState)) :
    ∀ l : DashboardState,
      List.Chain' (fun a b => a ≠ b) (l :: streamTicks false (some l) ts) := by
  induction ts with
  | nil =>
    intro l
    simp [streamTicks]
  | cons t rest ih =>
    intro l
    match t with
    | none =>
      have e : streamTicks false (some l) (none :: rest) =
          streamTicks false (some l) rest := by
        simp [streamTicks]
      rw [e]
      exact ih l
    | some s =>
      by_cases hsl : s = l
      · subst hsl
        have e : streamTicks false (some s) (some s :: rest) =
            streamTicks false (some s) rest := by
          simp [streamTicks]
        rw [e]
        exact ih s
      · have e : streamTicks false (some l) (some s :: rest) =
            s :: streamTicks false (some s) rest := by
          simp [streamTicks, hsl]
        rw [e]
        exact List.chain'_cons.mpr ⟨fun h => hsl h.symm, ih s⟩

theorem streamTicks_chain_none (ts : List (Option DashboardState)) :
    List.Chain' (fun a b => a ≠ b) (streamTicks false none ts) := by
  induction ts with
  | nil => simp [streamTicks]
  | cons t rest ih =>
    match t with
    | none =>
      have e : streamTicks false none (none :: rest) =
          streamTicks false none rest := by
        simp [streamTicks]
      rw [e]
      exact ih
    | some s =>
      have e : streamTicks false none (some s :: rest) =
          s :: streamTicks false (some s) rest := by
        simp [streamTicks]
      rw [e]
      exact streamTicks_chain_from rest s

theorem streamTicks_demo (ts : List (Option DashboardState)) :
    ∀ last, streamTicks true last ts = ts.filterMap id := by
  induction ts with
  | nil => intro last; rfl
  | cons t rest ih =>
    intro last
    match t with
    | none =>
      have e : streamTicks true last (none :: rest) =
          streamTicks true last rest := by
        simp [streamTicks]
      rw [e, ih last]
      rfl
    | some s =>
      have e : streamTicks true last (some s :: rest) =
          s :: streamTicks true (some s) rest := by
        simp [streamTicks]
      rw [e, ih (some s)]
      rfl

/-- Claim C7: the publisher never broadcasts a snapshot whose serialization
equals the last-published serialization (consecutive emissions are always
distinct), except in demo mode where it emits every successfully built
snapshot; in particular two consecutive builds of structurally identical
snapshots yield exactly one broadcast (for the first) and a third build
differing in any field yields a second broadcast.  (`JSON.stringify` is
deterministic and injective on snapshots, so serialization equality is
snapshot equality.) -/
theorem claim_C7 : ∀ (init : Option DashboardState)
    (ticks : List (Option DashboardState)) (s s' : DashboardState),
    List.Chain' (fun a b => a ≠ b) (streamEmits false init ticks) ∧
    (s ≠ s' →
      streamEmits false none [some s, some s, some s'] = [s, s'] ∧
      streamEmits true none [some s, some s, some s'] = [s, s, s']) ∧
    streamEmits true init ticks = init.toList ++ ticks.filterMap id := by
  intro init ticks s s'
  refine ⟨?_, ?_, ?_⟩
  · match init with
    | none => exact streamTicks_chain_none ticks
    | some s0 =>
      show List.Chain' _ (s0 :: streamTicks false (some s0) ticks)
      exact streamTicks_chain_from ticks s0
  · intro hss
    have hss' : s' ≠ s := Ne.symm hss
    constructor
    · show streamTicks false none [some s, some s, some s'] = [s, s']
      simp [streamTicks, hss']
    · show streamTicks true none [some s, some s, some s'] = [s, s, s']
      rw [streamTicks_demo _ none]
      rfl
  · match init with
    | none =>
      show streamTicks true none ticks = [] ++ ticks.filterMap id
      rw [streamTicks_demo _ none]
      rfl
    | some s0 =>
      show s0 :: streamTicks true (some s0) ticks = (s0 :: []) ++ ticks.filterMap id
      rw [streamTicks_demo _ (some s0)]
      rfl

/-- A minimal concrete snapshot. -/
def dsA : DashboardState :=
  ⟨⟨"idle", none, "claude-opus-4-5", "main", 0, 0⟩, [], [], [],
    ⟨0, 0, 0, 0, 0⟩, 0⟩

/-- `dsA` with one nested field changed (`stats.avgResponseTime`). -/
def dsB : DashboardState :=
  ⟨⟨"idle", none, "claude-opus-4-5", "main", 0, 0⟩, [], [], [],
    ⟨0, 0, 0, 2100, 0⟩, 0⟩

/-- Closed instantiation of `claim_C7`. -/
theorem claim_C7_witness :
    dsA ≠ dsB ∧
    streamEmits false none [some dsA, some dsA, some dsB] = [dsA, dsB] ∧
    streamEmits true none [some dsA, some dsA, some dsB] = [dsA, dsA, dsB] := by
  have h : dsA ≠ dsB := by decide
  have happ := (claim_C7 none [] dsA dsB).2.1 h
  exact ⟨h, happ.1, happ.2⟩

/-! ### C10: samples are stamped with the insertion instant -/

theorem mem_pushBounded {s x : Sample} {l : List Sample}
    (hx : x ∈ pushBounded s l) : x = s ∨ x ∈ l := by
  have hx' : x ∈ s :: l := by
    revert hx
    show x ∈ (if (s :: l).length > MAX_METRICS then (s :: l).dropLast else s :: l) →
      x ∈ s :: l
    split_ifs with hl
    · intro hx
      exact (List.dropLast_sublist (s :: l)).subset hx
    · exact id
  exact List.mem_cons.mp hx'

theorem applyCall_responseTimes_mem (now : Int) (m : Metrics) (c : Call)
    (x : Sample) (hx : x ∈ (applyCall now m c).responseTimes) :
    x ∈ m.responseTimes ∨ x.timestamp = now := by
  match hc : c.kind with
  | .resp =>
    have : (applyCall now m c).responseTimes =
        (trackResponseTime c.ms now c.src m).responseTimes := by
      unfold applyCall
      rw [hc]
    rw [this] at hx
    unfold trackResponseTime at hx
    split_ifs at hx with hr
    · rcases mem_pushBounded hx with he | hm
      · right
        rw [he]
      · left
        exact hm
    · left
      exact hx
  | .compl =>
    have : (applyCall now m c).responseTimes = m.responseTimes := by
      unfold applyCall
      rw [hc]
      unfold trackCompletionTime
      split_ifs <;> rfl
    rw [this] at hx
    left
    exact hx

theorem applyCall_completionTimes_mem (now : Int) (m : Metrics) (c : Call)
    (x : Sample) (hx : x ∈ (applyCall now m c).completionTimes) :
    x ∈ m.completionTimes ∨ x.timestamp = now := by
  match hc : c.kind with
  | .compl =>
    have : (applyCall now m c).completionTimes =
        (trackCompletionTime c.ms now c.src m).completionTimes := by
      unfold applyCall
      rw [hc]
    rw [this] at hx
    unfold trackCompletionTime at hx
    split_ifs at hx with hr
    · rcases mem_pushBounded hx with he | hm
      · right
        rw [he]
      · left
        exact hm
    · left
      exact hx
  | .resp =>
    have : (applyCall now m c).completionTimes = m.completionTimes := by
      unfold applyCall
      rw [hc]
      unfold trackResponseTime
      split_ifs <;> rfl
    rw [this] at hx
    left
    exact hx

theorem applyCalls_responseTimes_mem (cs : List Call) : ∀ (now : Int) (m : Metrics)
    (x : Sample), x ∈ (applyCalls now m cs).responseTimes →
    x ∈ m.responseTimes ∨ x.timestamp = now := by
  induction cs with
  | nil =>
    intro now m x hx
    left
    exact hx
  | cons c rest ih =>
    intro now m x hx
    have hx' : x ∈ (applyCalls now (applyCall now m c) rest).responseTimes := hx
    rcases ih now (applyCall now m c) x hx' with hm | ht
    · exact applyCall_responseTimes_mem now m c x hm
    · right
      exact ht

theorem applyCalls_completionTimes_mem (cs : List Call) : ∀ (now : Int) (m : Metrics)
    (x : Sample), x ∈ (applyCalls now m cs).completionTimes →
    x ∈ m.completionTimes ∨ x.timestamp = now := by
  induction cs with
  | nil =>
    intro now m x hx
    left
    exact hx
  | cons c rest ih =>
    intro now m x hx
    have hx' : x ∈ (applyCalls now (applyCall now m c) rest).completionTimes := hx
    rcases ih now (applyCall now m c) x hx' with hm | ht
    · exact applyCall_completionTimes_mem now m c x hm
    · right
      exact ht

/-- Claim C10: every latency sample recorded while replaying an extractor
pass is stamped with the wall-clock instant of the insertion (`Date.now()`,
the `now` argument), not with the transcript entry's own timestamp —
whatever the entry timestamps in the pass were; consequently every newly
recorded sample lies strictly inside the trailing 24 h window ending at
that same `now`, so entries of an old transcript parsed for the first
time count as current samples in the average. -/
theorem claim_C10 : ∀ (p : Pass) (c : List (String × Int)) (now : Int) (m : Metrics),
    (∀ x ∈ (applyCalls now m (runPass c p).1).responseTimes,
      x ∈ m.responseTimes ∨ (x.timestamp = now ∧ now - 86400000 < x.timestamp)) ∧
    (∀ x ∈ (applyCalls now m (runPass c p).1).completionTimes,
      x ∈ m.completionTimes ∨ (x.timestamp = now ∧ now - 86400000 < x.timestamp)) := by
  intro p c now m
  constructor
  · intro x hx
    rcases applyCalls_responseTimes_mem (runPass c p).1 now m x hx with hm | ht
    · left
      exact hm
    · right
      exact ⟨ht, by rw [ht]; omega⟩
  · intro x hx
    rcases applyCalls_completionTimes_mem (runPass c p).1 now m x hx with hm | ht
    · left
      exact hm
    · right
      exact ⟨ht, by rw [ht]; omega⟩

/-- A two-line transcript: an old user turn and the assistant reply 1 s
later. -/
def wEntriesOld : List (Option Entry) :=
  [some ⟨.user, some 1000, "please check the numbers", "KP"⟩,
   some ⟨.assistant, some 2000, "sure, here are the numbers you requested", "KP"⟩]

/-- A pass over that old transcript. -/
def wPassOld : Pass := ⟨"s", "KP", true, some wEntriesOld⟩

/-- Closed instantiation of `claim_C10`: parsing the old transcript (entry
timestamps 1000 and 2000) at wall-clock time 1700000000000 stores a sample
stamped 1700000000000, inside the 24 h window at that instant. -/
theorem claim_C10_witness :
    (⟨1000, 1700000000000, ⟨"KP", true⟩⟩ : Sample) ∈
      (applyCalls 1700000000000 initialMetrics (runPass [] wPassOld).1).responseTimes ∧
    ((⟨1000, 1700000000000, ⟨"KP", true⟩⟩ : Sample) ∈ initialMetrics.responseTimes ∨
      ((1700000000000 : Int) = 1700000000000 ∧
        (1700000000000 : Int) - 86400000 < 1700000000000)) := by
  have hmem : (⟨1000, 1700000000000, ⟨"KP", true⟩⟩ : Sample) ∈
      (applyCalls 1700000000000 initialMetrics (runPass [] wPassOld).1).responseTimes := by
    decide
  exact ⟨hmem,
    (claim_C10 wPassOld [] 1700000000000 initialMetrics).1 _ hmem⟩

/-! ### C1: cursor monotonicity and no re-emission -/

theorem processLine_newest_mono (sid lbl : String) (dm : Bool) (lt : Int)
    (st : PassState) (line : Option Entry) :
    st.newest ≤ (processLine sid lbl dm lt st line).newest := by
  rcases line with _ | ⟨erole, ets, eex, eun⟩
  · exact le_refl _
  · rcases ets with _ | t
    · exact le_refl _
    · rcases erole with _ | _ | _
      · by_cases ht : t = 0
        · dsimp only [processLine]
          rw [if_pos ht]
        · dsimp only [processLine]
          rw [if_neg ht]
          split_ifs <;> (show st.newest ≤ st.newest ⊔ t; exact le_sup_left)
      · by_cases ht : t = 0
        · dsimp only [processLine]
          rw [if_pos ht]
        · dsimp only [processLine]
          rw [if_neg ht]
          rcases hlu : st.lastUser with _ | u
          · show st.newest ≤ st.newest ⊔ t
            exact le_sup_left
          · show st.newest ≤ st.newest ⊔ t
            exact le_sup_left
      · by_cases ht : t = 0
        · dsimp only [processLine]
          rw [if_pos ht]
        · dsimp only [processLine]
          rw [if_neg ht]
          show st.newest ≤ st.newest ⊔ t
          exact le_sup_left

theorem processLine_calls_gt (sid lbl : String) (dm : Bool) (lt : Int)
    (st : PassState) (line : Option Entry)
    (hinv : ∀ cl ∈ st.calls, lt < cl.entryTs) :
    ∀ cl ∈ (processLine sid lbl dm lt st line).calls, lt < cl.entryTs := by
  rcases line with _ | ⟨erole, ets, eex, eun⟩
  · exact hinv
  · rcases ets with _ | t
    · exact hinv
    · rcases erole with _ | _ | _
      · by_cases ht : t = 0
        · dsimp only [processLine]
          rw [if_pos ht]
          exact hinv
        · dsimp only [processLine]
          rw [if_neg ht]
          split_ifs <;> (show ∀ cl ∈ st.calls, lt < cl.entryTs; exact hinv)
      · by_cases ht : t = 0
        · dsimp only [processLine]
          rw [if_pos ht]
          exact hinv
        · dsimp only [processLine]
          rw [if_neg ht]
          rcases hlu : st.lastUser with _ | u
          · show ∀ cl ∈ st.calls, lt < cl.entryTs
            exact hinv
          · intro cl hcl
            dsimp only [] at hcl
            split_ifs at hcl with h1 h2
            · rcases List.mem_append.mp hcl with hcl1 | hcl2
              · rcases List.mem_append.mp hcl1 with hcl3 | hcl4
                · exact hinv cl hcl3
                · rw [List.mem_singleton.mp hcl4]
                  exact h1.1
              · rw [List.mem_singleton.mp hcl2]
                exact h1.1
            · rcases List.mem_append.mp hcl with hcl1 | hcl2
              · rcases List.mem_append.mp hcl1 with hcl3 | hcl4
                · exact hinv cl hcl3
                · rw [List.mem_singleton.mp hcl4]
                  exact h1.1
              · exact absurd hcl2 (List.not_mem_nil cl)
            · exact hinv cl hcl
      · by_cases ht : t = 0
        · dsimp only [processLine]
          rw [if_pos ht]
          exact hinv
        · dsimp only [processLine]
          rw [if_neg ht]
          show ∀ cl ∈ st.calls, lt < cl.entryTs
          exact hinv

theorem foldl_processLine_newest (sid lbl : String) (dm : Bool) (lt : Int)
    (lines : List (Option Entry)) : ∀ st : PassState,
    st.newest ≤ (lines.foldl (processLine sid lbl dm lt) st).newest := by
  induction lines with
  | nil => intro st; exact le_refl _
  | cons line rest ih =>
    intro st
    exact le_trans (processLine_newest_mono sid lbl dm lt st line)
      (ih (processLine sid lbl dm lt st line))

theorem foldl_processLine_calls (sid lbl : String) (dm : Bool) (lt : Int)
    (lines : List (Option Entry)) : ∀ st : PassState,
    (∀ cl ∈ st.calls, lt < cl.entryTs) →
    ∀ cl ∈ (lines.foldl (processLine sid lbl dm lt) st).calls, lt < cl.entryTs := by
  induction lines with
  | nil => intro st hinv; exact hinv
  | cons line rest ih =>
    intro st hinv
    exact ih (processLine sid lbl dm lt st line)
      (processLine_calls_gt sid lbl dm lt st line hinv)

theorem parseTranscript_calls_gt (sid lbl : String) (dm : Bool)
    (file : Option (List (Option Entry))) (c : List (String × Int)) :
    ∀ cl ∈ (parseTranscript sid lbl dm file c).2.1, cursorOf sid c < cl.entryTs := by
  rcases file with _ | lines
  · intro cl hcl
    exact absurd hcl (List.not_mem_nil cl)
  · intro cl hcl
    have hcl' : cl ∈ ((lastN 100 lines).foldl
        (processLine sid lbl dm (cursorOf sid c))
        ⟨[], [], cursorOf sid c, none⟩).calls := hcl
    exact foldl_processLine_calls sid lbl dm (cursorOf sid c) (lastN 100 lines)
      ⟨[], [], cursorOf sid c, none⟩
      (fun cl hcl => absurd hcl (List.not_mem_nil cl)) cl hcl'

theorem lookup_setAssoc_self (k : String) (v : Int) (m : List (String × Int)) :
    (setAssoc k v m).lookup k = some v := by
  induction m with
  | nil => simp [setAssoc, List.lookup]
  | cons p rest ih =>
    obtain ⟨k', v'⟩ := p
    by_cases hk : k' = k
    · simp [setAssoc, hk, List.lookup]
    · have hbeq : (k == k') = false := beq_eq_false_iff_ne.mpr (Ne.symm hk)
      simp [setAssoc, hk, List.lookup, hbeq, ih]

theorem lookup_setAssoc_ne (k k' : String) (hne : k' ≠ k) (v : Int)
    (m : List (String × Int)) :
    (setAssoc k v m).lookup k' = m.lookup k' := by
  induction m with
  | nil =>
    have hbeq : (k' == k) = false := beq_eq_false_iff_ne.mpr hne
    simp [setAssoc, List.lookup, hbeq]
  | cons p rest ih =>
    obtain ⟨k2, v2⟩ := p
    by_cases hk : k2 = k
    · have hbeq : (k' == k) = false := beq_eq_false_iff_ne.mpr hne
      have hbeq2 : (k' == k2) = false := by
        rw [hk]
        exact hbeq
      simp [setAssoc, hk, List.lookup, hbeq, hbeq2]
    · by_cases hk2 : k' = k2
      · simp [setAssoc, hk, List.lookup, hk2]
      · have hbeq2 : (k' == k2) = false := beq_eq_false_iff_ne.mpr hk2
        simp [setAssoc, hk, List.lookup, hbeq2, ih]

theorem cursorOf_setAssoc_self (sid : String) (v : Int) (m : List (String × Int)) :
    cursorOf sid (setAssoc sid v m) = v := by
  simp [cursorOf, lookup_setAssoc_self]

theorem cursorOf_setAssoc_ne (sid sid' : String) (h : sid' ≠ sid) (v : Int)
    (m : List (String × Int)) :
    cursorOf sid' (setAssoc sid v m) = cursorOf sid' m := by
  simp [cursorOf, lookup_setAssoc_ne sid sid' h]

theorem parseTranscript_cursor_mono (sid lbl : String) (dm : Bool)
    (file : Option (List (Option Entry))) (c : List (String × Int)) (sid' : String) :
    cursorOf sid' c ≤ cursorOf sid' (parseTranscript sid lbl dm file c).2.2 := by
  rcases file with _ | lines
  · exact le_refl _
  · have hres : (parseTranscript sid lbl dm (some lines) c).2.2 =
        (if cursorOf sid c <
            ((lastN 100 lines).foldl (processLine sid lbl dm (cursorOf sid c))
              ⟨[], [], cursorOf sid c, none⟩).newest
          then setAssoc sid
            ((lastN 100 lines).foldl (processLine sid lbl dm (cursorOf sid c))
              ⟨[], [], cursorOf sid c, none⟩).newest c
          else c) := rfl
    rw [hres]
    split_ifs with hupd
    · by_cases hsid : sid' = sid
      · rw [hsid, cursorOf_setAssoc_self]
        exact le_of_lt hupd
      · rw [cursorOf_setAssoc_ne sid sid' hsid]
    · exact le_refl _

theorem cursorsAfter_mono (ps : List Pass) : ∀ (c : List (String × Int))
    (sid : String), cursorOf sid c ≤ cursorOf sid (cursorsAfter c ps) := by
  induction ps with
  | nil => intro c sid; exact le_refl _
  | cons p rest ih =>
    intro c sid
    exact le_trans
      (parseTranscript_cursor_mono p.sessionId p.userLabel p.isDM p.file c sid)
      (ih (runPass c p).2 sid)

theorem taggedCalls_gt (qs : List Pass) : ∀ (c : List (String × Int))
    (pr : String × Call), pr ∈ taggedCalls c qs →
    cursorOf pr.1 c < pr.2.entryTs := by
  induction qs with
  | nil =>
    intro c pr hpr
    exact absurd hpr (List.not_mem_nil pr)
  | cons p rest ih =>
    intro c pr hpr
    have hpr' : pr ∈ (runPass c p).1.map (fun cl => (p.sessionId, cl)) ++
        taggedCalls (runPass c p).2 rest := hpr
    rcases List.mem_append.mp hpr' with hl | hr
    · rcases List.mem_map.mp hl with ⟨cl, hcl, hpre⟩
      rw [← hpre]
      exact parseTranscript_calls_gt p.sessionId p.userLabel p.isDM p.file c cl hcl
    · exact lt_of_le_of_lt
        (parseTranscript_cursor_mono p.sessionId p.userLabel p.isDM p.file c pr.1)
        (ih (runPass c p).2 pr hr)

/-- Claim C1: across any sequence of extractor passes the per-session
cursor is non-decreasing, and every latency sample reported to the
aggregator during any later passes comes from an entry whose timestamp is
strictly greater than the cursor after the earlier passes — so no entry
with timestamp at or below a previous pass's cursor is ever re-reported. -/
theorem claim_C1 : ∀ (ps qs : List Pass) (c0 : List (String × Int)) (sid : String),
    cursorOf sid c0 ≤ cursorOf sid (cursorsAfter c0 ps) ∧
    (∀ pr ∈ taggedCalls (cursorsAfter c0 ps) qs, pr.1 = sid →
      cursorOf sid (cursorsAfter c0 ps) < pr.2.entryTs) := by
  intro ps qs c0 sid
  refine ⟨cursorsAfter_mono ps c0 sid, ?_⟩
  intro pr hpr hsid
  rw [← hsid]
  exact taggedCalls_gt qs (cursorsAfter c0 ps) pr hpr

/-- A later transcript state of the same session: two new turns after
`wEntriesOld`. -/
def wEntriesNew : List (Option Entry) :=
  wEntriesOld ++
    [some ⟨.user, some 3000, "now check the forecast too", "KP"⟩,
     some ⟨.assistant, some 4000, "the forecast numbers look fine as well", "KP"⟩]

/-- The second pass, over the grown transcript. -/
def wPassNew : Pass := ⟨"s", "KP", true, some wEntriesNew⟩

/-- Closed instantiation of `claim_C1`: after the first pass the cursor
advanced to 2000, and the only sample of the second pass comes from the
entry at 4000 > 2000. -/
theorem claim_C1_witness :
    cursorOf "s" [] ≤ cursorOf "s" (cursorsAfter [] [wPassOld]) ∧
    ("s", (⟨.resp, 1000, 4000, ⟨"KP", true⟩⟩ : Call)) ∈
      taggedCalls (cursorsAfter [] [wPassOld]) [wPassNew] ∧
    cursorOf "s" (cursorsAfter [] [wPassOld]) < 4000 := by
  refine ⟨(claim_C1 [wPassOld] [wPassNew] [] "s").1, by decide, ?_⟩
  exact (claim_C1 [wPassOld] [wPassNew] [] "s").2
    ("s", ⟨.resp, 1000, 4000, ⟨"KP", true⟩⟩) (by decide) rfl

/-! ### C3: what the cursor actually gates -/

theorem processLine_acts_indep (sid lbl : String) (dm : Bool) (lt lt' : Int)
    (st st' : PassState) (ha : st.activities = st'.activities)
    (hu : st.lastUser = st'.lastUser) (line : Option Entry) :
    (processLine sid lbl dm lt st line).activities =
      (processLine sid lbl dm lt' st' line).activities ∧
    (processLine sid lbl dm lt st line).lastUser =
      (processLine sid lbl dm lt' st' line).lastUser := by
  rcases line with _ | ⟨erole, ets, eex, eun⟩
  · exact ⟨ha, hu⟩
  · rcases ets with _ | t
    · exact ⟨ha, hu⟩
    · rcases erole with _ | _ | _
      · by_cases ht : t = 0
        · dsimp only [processLine]
          rw [if_pos ht, if_pos ht]
          exact ⟨ha, hu⟩
        · dsimp only [processLine]
          rw [if_neg ht, if_neg ht]
          split_ifs <;> exact ⟨by rw [ha], rfl⟩
      · by_cases ht : t = 0
        · dsimp only [processLine]
          rw [if_pos ht, if_pos ht]
          exact ⟨ha, hu⟩
        · dsimp only [processLine]
          rw [if_neg ht, if_neg ht]
          rcases hlu : st.lastUser with _ | u
          · have hsu : st'.lastUser = none := hu.symm.trans hlu
            rw [hsu]
            exact ⟨ha, rfl⟩
          · have hsu : st'.lastUser = some u := hu.symm.trans hlu
            rw [hsu]
            split_ifs <;> exact ⟨by rw [ha], rfl⟩
      · by_cases ht : t = 0
        · dsimp only [processLine]
          rw [if_pos ht, if_pos ht]
          exact ⟨ha, hu⟩
        · dsimp only [processLine]
          rw [if_neg ht, if_neg ht]
          exact ⟨ha, hu⟩

theorem foldl_processLine_acts (sid lbl : String) (dm : Bool) (lt lt' : Int)
    (lines : List (Option Entry)) : ∀ (st st' : PassState),
    st.activities = st'.activities → st.lastUser = st'.lastUser →
    (lines.foldl (processLine sid lbl dm lt) st).activities =
      (lines.foldl (processLine sid lbl dm lt') st').activities := by
  induction lines with
  | nil =>
    intro st st' ha hu
    exact ha
  | cons line rest ih =>
    intro st st' ha hu
    have h := processLine_acts_indep sid lbl dm lt lt' st st' ha hu line
    exact ih _ _ h.1 h.2

theorem parseTranscript_acts_indep (sid lbl : String) (dm : Bool)
    (file : Option (List (Option Entry))) (c c' : List (String × Int)) :
    (parseTranscript sid lbl dm file c).1 = (parseTranscript sid lbl dm file c').1 := by
  rcases file with _ | lines
  · rfl
  · exact foldl_processLine_acts sid lbl dm (cursorOf sid c) (cursorOf sid c')
      (lastN 100 lines) ⟨[], [], cursorOf sid c, none⟩
      ⟨[], [], cursorOf sid c', none⟩ rfl rfl

set_option maxRecDepth 8000 in
/-- Counterexample to claim C3 as stated: with the stored cursor at 5000,
a pass over a transcript whose entries have timestamps 1000 and 2000
(both ≤ 5000) still produces both ActivityEvents — only the aggregator
calls are suppressed.  The cursor does not gate activity production. -/
theorem counterexample_C3 :
    (parseTranscript "s" "KP" true (some wEntriesOld) [("s", 5000)]).1 =
      [⟨"in-s-1000", "incoming", "please check the numbers", 1000, "completed",
        none, ⟨"slack", some "KP", some "dm"⟩, "KP (DM)"⟩,
       ⟨"out-s-2000", "message", "sure, here are the numbers you requested", 2000,
        "completed", some 1000, ⟨"slack", some "KP", some "dm"⟩, "to KP (DM)"⟩] ∧
    cursorOf "s" [("s", 5000)] = 5000 ∧
    ((1000 : Int) ≤ 5000 ∧ (2000 : Int) ≤ 5000) ∧
    (parseTranscript "s" "KP" true (some wEntriesOld) [("s", 5000)]).2.1 = [] := by
  refine ⟨by decide, by decide, by decide, by decide⟩

/-- Claim C3 (amended): on a pass, no latency pair is reported to the
aggregator for an entry whose timestamp is not strictly greater than the
stored cursor; the ActivityEvent list, however, is produced independently
of the cursor (entries at or below the cursor are re-emitted as
activities and deduplicated only downstream, by id). -/
theorem claim_C3_amended : ∀ (sid lbl : String) (dm : Bool)
    (file : Option (List (Option Entry))) (c c' : List (String × Int)),
    (∀ cl ∈ (parseTranscript sid lbl dm file c).2.1, cursorOf sid c < cl.entryTs) ∧
    (parseTranscript sid lbl dm file c).1 = (parseTranscript sid lbl dm file c').1 :=
  fun sid lbl dm file c c' =>
    ⟨parseTranscript_calls_gt sid lbl dm file c,
      parseTranscript_acts_indep sid lbl dm file c c'⟩

set_option maxRecDepth 8000 in
/-- Closed instantiation of `claim_C3_amended`. -/
theorem claim_C3_witness :
    (⟨.resp, 1000, 2000, ⟨"KP", true⟩⟩ : Call) ∈
      (parseTranscript "s" "KP" true (some wEntriesOld) []).2.1 ∧
    cursorOf "s" [] < 2000 ∧
    (parseTranscript "s" "KP" true (some wEntriesOld) []).1 =
      (parseTranscript "s" "KP" true (some wEntriesOld) [("s", 700)]).1 := by
  refine ⟨by decide, ?_, (claim_C3_amended "s" "KP" true (some wEntriesOld)
    [] [("s", 700)]).2⟩
  exact (claim_C3_amended "s" "KP" true (some wEntriesOld) [] [("s", 700)]).1
    ⟨.resp, 1000, 2000, ⟨"KP", true⟩⟩ (by decide)

/-! ### C9: graceful degradation -/

/-- Claim C9: a missing or unreadable source is treated as empty data and
never throws: `parseTranscript` on a nonexistent transcript returns the
empty activity list (and makes no aggregator call, leaving the cursor map
unchanged), `readSessions` on a missing/corrupt registry returns the
empty mapping, and `buildDashboardState` over the missing registry still
returns a well-formed (sparse) snapshot with the metrics state untouched. -/
theorem claim_C9 : ∀ (sid lbl : String) (dm : Bool) (c : List (String × Int))
    (fsx : String → Option (List (Option Entry))) (m : Metrics) (now : Int),
    parseTranscript sid lbl dm none c = ([], [], c) ∧
    readSessions none = [] ∧
    (buildDashboardState none fsx m now).1.recentActivity = [] ∧
    (buildDashboardState none fsx m now).1.subAgents = [] ∧
    (buildDashboardState none fsx m now).1.cronJobs = [] ∧
    (buildDashboardState none fsx m now).1.bri.status = briStatusOf now ∧
    (buildDashboardState none fsx m now).1.bri.lastActivity = 0 ∧
    (buildDashboardState none fsx m now).1.stats.totalTasks24h = 0 ∧
    (buildDashboardState none fsx m now).1.stats.avgResponseTime =
      getAvgResponseTime now m ∧
    (buildDashboardState none fsx m now).1.lastUpdated = now ∧
    (buildDashboardState none fsx m now).2 = m ∧
    (buildDashboardState none fsx m now).1.recentActivity.length ≤ 50 := by
  intro sid lbl dm c fsx m now
  have hst : (buildDashboardState none fsx m now).1.bri.status =
      briStatusOf (now - 0) := rfl
  rw [sub_zero] at hst
  exact ⟨rfl, rfl, rfl, rfl, rfl, hst, rfl, rfl, rfl, rfl, rfl, Nat.zero_le 50⟩
